import Mathlib

/-!
Shallow embedding of the `wildmon` crate (src/lib.rs): the `Gender` data
model with `symbol` and `randomize`, the `WildmonSettings` configuration,
and the `wildmon` encounter-label generator.

The caller-supplied random source (`rand::Rng`, passed `&mut`) is modelled
as a pair of explicit streams: `floats` stands for successive results of
`rng.gen::<f32>()` (rationals, each intended to lie in `[0,1)`), and `ints`
stands for the successive raw index/range draws that back
`SliceRandom::choose` and `rng.gen_range`.  A uniform choice from a list of
length `n` is modelled as taking the next int draw `i` and selecting index
`i % n`; `gen_range(lo..=hi)` is modelled as `lo + i % (hi - lo + 1)`.
Mutation of the `&mut` rng is modelled by state passing: each operation
returns the value together with the advanced stream state.
-/

namespace Wildmon

/-- `pub const MISSINGNO: &'static str = "Missingno.";` -/
def MISSINGNO : String := "Missingno."

/-- The `Gender` enum of src/lib.rs; the `f32` payload of the ratio case is
modelled as a rational. -/
inductive Gender : Type where
  | Agender : Gender
  | Male : Gender
  | Female : Gender
  | Ratio : ℚ → Gender
deriving DecidableEq

/-- `Gender::symbol`. -/
def Gender.symbol : Gender → String
  | Gender.Agender => ""
  | Gender.Male => "♂"
  | Gender.Female => "♀"
  | Gender.Ratio _ => "?"

/-- Whether a gender value is the ratio case. -/
def Gender.isRatio : Gender → Bool
  | Gender.Ratio _ => true
  | _ => false

/-- The random source: stream of `gen::<f32>()` results and stream of raw
integer draws backing `choose` / `gen_range`. -/
structure Rng : Type where
  floats : ℕ → ℚ
  ints : ℕ → ℕ

/-- The rng state after consuming one float draw. -/
def Rng.floatTail (r : Rng) : Rng :=
  ⟨fun n => r.floats (n + 1), r.ints⟩

/-- The rng state after consuming one int draw. -/
def Rng.intTail (r : Rng) : Rng :=
  ⟨r.floats, fun n => r.ints (n + 1)⟩

/-- `rng.gen::<f32>()`: one uniform draw in `[0,1)`, state advanced. -/
def Rng.nextFloat (r : Rng) : ℚ × Rng :=
  (r.floats 0, r.floatTail)

/-- One raw integer draw, state advanced. -/
def Rng.nextInt (r : Rng) : ℕ × Rng :=
  (r.ints 0, r.intTail)

/-- `SliceRandom::choose`: `None` on an empty slice (no draw consumed),
otherwise a uniformly chosen element (one int draw consumed). -/
def chooseList {α : Type} (l : List α) (r : Rng) : Option α × Rng :=
  match l with
  | [] => (none, r)
  | a :: tl =>
      let p := r.nextInt
      (some ((a :: tl).getD (p.1 % (tl.length + 1)) a), p.2)

/-- `rng.gen_range(lo..=hi)`: one int draw, mapped into `[lo, hi]`. -/
def genRange (lo hi : ℕ) (r : Rng) : ℕ × Rng :=
  let p := r.nextInt
  (lo + p.1 % (hi - lo + 1), p.2)

/-- `Gender::randomize`: the ratio case consumes one float draw `g` and
resolves to `Female` when `g < ratio`, else `Male`; every other case is
returned unchanged with the rng untouched. -/
def Gender.randomize (g : Gender) (r : Rng) : Gender × Rng :=
  match g with
  | Gender.Ratio ratio =>
      let p := r.nextFloat
      (if p.1 < ratio then Gender.Female else Gender.Male, p.2)
  | g => (g, r)

/-- The `SpeciesTag` enum. -/
inductive SpeciesTag : Type where
  | Mega : SpeciesTag
  | MegaXY : SpeciesTag
  | AlolaForm : SpeciesTag
deriving DecidableEq

/-- The `Species` struct. -/
structure Species : Type where
  names : List String
  gender : Gender
  tags : List SpeciesTag
deriving DecidableEq

/-- The `WildmonSettings` struct. -/
structure WildmonSettings : Type where
  canon : Bool
  whitespace : Bool
  allow_genders : List Gender

/-- `impl Default for WildmonSettings`. -/
def WildmonSettings.defaultSettings : WildmonSettings :=
  ⟨true, false, []⟩

/-- `WildmonSettings::allow_gender`: append one gender to the allow list. -/
def WildmonSettings.allow_gender (s : WildmonSettings) (g : Gender) : WildmonSettings :=
  { s with allow_genders := s.allow_genders ++ [g] }

/-- `static DEFAULT_GENDERS`. -/
def DEFAULT_GENDERS : List Gender :=
  [Gender.Male, Gender.Female, Gender.Agender]

/-- The effective allowed set of `wildmon`: the default set when
`opts.allow_genders` has length 0, otherwise the caller-supplied list. -/
def effectiveAllowed (opts : WildmonSettings) : List Gender :=
  if opts.allow_genders.length = 0 then DEFAULT_GENDERS else opts.allow_genders

/-- Lines 105-116 of src/lib.rs: keep the resolved gender when the effective
allowed set contains it; otherwise replace it by
`opts.allow_genders.choose(rng).copied().unwrap_or(Gender::Agender)`. -/
def finalGender (g : Gender) (opts : WildmonSettings) (r : Rng) : Gender × Rng :=
  if g ∈ effectiveAllowed opts then (g, r)
  else
    match chooseList opts.allow_genders r with
    | (some g2, r2) => (g2, r2)
    | (none, r2) => (Gender.Agender, r2)

/-- `species.names.first()` with the `MISSINGNO` fallback. -/
def speciesName (sp : Species) : String :=
  match sp.names.head? with
  | some n => n
  | none => MISSINGNO

/-- `mon.replace(" ", "_")` for the single-character pattern: every space
character of the string becomes an underscore. -/
def replaceSpaces (s : String) : String :=
  String.mk (s.data.map fun c => if c = ' ' then '_' else c)

/-- `format!("Wild {}{} (lv{})", name, gender.symbol(), level)` followed by
the whitespace policy of lines 120-124. -/
def formatMon (name : String) (g : Gender) (level : ℕ) (ws : Bool) : String :=
  let mon := "Wild " ++ name ++ g.symbol ++ " (lv" ++ toString level ++ ")"
  if !ws then replaceSpaces mon else mon

/-- `pub fn wildmon`.  The `&mut` rng is modelled by also returning the
final rng state. -/
def wildmon (rng : Rng) (pokedex : List Species) (opts : WildmonSettings) :
    String × Rng :=
  let _canon := opts.canon
  let c := chooseList pokedex rng
  match c.1 with
  | none => (MISSINGNO, c.2)
  | some sp =>
      let p2 := sp.gender.randomize c.2
      let p3 := finalGender p2.1 opts p2.2
      let p4 := genRange 1 100 p3.2
      (formatMon (speciesName sp) p3.1 p4.1 opts.whitespace, p4.2)

/-- A fixed all-zero random source, used for concrete instantiations. -/
def rng0 : Rng := ⟨fun _ => 0, fun _ => 0⟩

/-- A species with a fixed Female gender, used for concrete instantiations. -/
def eve : Species := ⟨["Eve"], Gender.Female, []⟩

/-- A species shaped like the spec's Mr. Mime example: first name
"Mr. Mime" and Agender gender. -/
def mrMime : Species := ⟨["Mr. Mime"], Gender.Agender, []⟩

/-- A random source whose second int draw is 4, so that the level draw of a
one-species run with an Agender species yields level 5. -/
def rngEx : Rng := ⟨fun _ => 0, fun n => if n = 1 then 4 else 0⟩

/-- A species record with no names, used for concrete instantiations. -/
def noname : Species := ⟨[], Gender.Agender, []⟩

/-- Settings whose allow list is the single value Male. -/
def optsMale : WildmonSettings := ⟨true, false, [Gender.Male]⟩

/-- Settings whose allow list contains a raw Ratio value (the non-Ratio
invariant on `allow_genders` is the caller's responsibility, not checked by
the code). -/
def optsC5 : WildmonSettings := ⟨true, true, [Gender.Ratio (1/2)]⟩

end Wildmon

namespace Wildmon

/- Helper lemmas (shared; no claim theorem among them). -/

lemma randomize_fst_not_ratio (g : Gender) (r : Rng) :
    ((g.randomize r).1).isRatio = false := by
  cases g with
  | Ratio q =>
      show (if r.floats 0 < q then Gender.Female else Gender.Male).isRatio = false
      by_cases h : r.floats 0 < q
      · rw [if_pos h]; rfl
      · rw [if_neg h]; rfl
  | Agender => rfl
  | Male => rfl
  | Female => rfl

lemma chooseList_nil {α : Type} (r : Rng) :
    chooseList ([] : List α) r = (none, r) := rfl

lemma chooseList_cons {α : Type} (a : α) (tl : List α) (r : Rng) :
    chooseList (a :: tl) r =
      (some ((a :: tl).getD (r.ints 0 % (tl.length + 1)) a), r.intTail) := rfl

lemma getD_head_mem {α : Type} (a : α) (tl : List α) (i : ℕ) :
    (a :: tl).getD i a ∈ a :: tl := by
  by_cases h : i < (a :: tl).length
  · rw [List.getD_eq_getElem _ _ h]
    exact List.getElem_mem h
  · rw [List.getD_eq_default _ _ (Nat.le_of_not_lt h)]
    exact List.mem_cons_self a tl

lemma chooseList_mem {α : Type} {l : List α} {r : Rng} {x : α} {r2 : Rng}
    (h : chooseList l r = (some x, r2)) : x ∈ l := by
  cases l with
  | nil => simp [chooseList_nil] at h
  | cons a tl =>
      rw [chooseList_cons] at h
      injection h with h1 h2
      injection h1 with h1
      exact h1 ▸ getD_head_mem a tl (r.ints 0 % (tl.length + 1))

lemma chooseList_of_ne_nil {dex : List Species} (rng : Rng) (h : dex ≠ []) :
    ∃ sp r1, chooseList dex rng = (some sp, r1) ∧ sp ∈ dex := by
  cases dex with
  | nil => exact absurd rfl h
  | cons a tl =>
      exact ⟨_, _, chooseList_cons a tl rng,
        getD_head_mem a tl (rng.ints 0 % (tl.length + 1))⟩

lemma wildmon_decomp (rng : Rng) (dex : List Species) (opts : WildmonSettings)
    (sp : Species) (r1 : Rng) (hc : chooseList dex rng = (some sp, r1)) :
    wildmon rng dex opts =
      (formatMon (speciesName sp)
        (finalGender (sp.gender.randomize r1).1 opts (sp.gender.randomize r1).2).1
        (1 + ((finalGender (sp.gender.randomize r1).1 opts
          (sp.gender.randomize r1).2).2).ints 0 % 100)
        opts.whitespace,
       ((finalGender (sp.gender.randomize r1).1 opts
          (sp.gender.randomize r1).2).2).intTail) := by
  simp only [wildmon, hc, genRange, Rng.nextInt]

lemma finalGender_not_ratio (g : Gender) (opts : WildmonSettings) (r : Rng)
    (hg : g.isRatio = false)
    (hag : ∀ x ∈ opts.allow_genders, x.isRatio = false) :
    ((finalGender g opts r).1).isRatio = false := by
  unfold finalGender
  by_cases h : g ∈ effectiveAllowed opts
  · rw [if_pos h]; exact hg
  · rw [if_neg h]
    rcases hc : chooseList opts.allow_genders r with ⟨o, r2⟩
    cases o with
    | none => rfl
    | some g2 => exact hag g2 (chooseList_mem hc)

/-- C4: `randomize` on `Ratio(p)` consumes exactly one float draw `g` and
returns Female when `g < p`, else Male; on Agender, Male or Female it
returns its input unchanged and consumes zero draws (the rng state is
returned untouched). -/
theorem randomize_spec (g : Gender) (r : Rng) :
    (∀ p, g = Gender.Ratio p →
      g.randomize r =
        ((if r.floats 0 < p then Gender.Female else Gender.Male), r.floatTail)) ∧
    (g.isRatio = false → g.randomize r = (g, r)) := by
  constructor
  · intro p hp
    subst hp
    rfl
  · intro h
    cases g with
    | Ratio q => simp [Gender.isRatio] at h
    | Agender => rfl
    | Male => rfl
    | Female => rfl

/-- Witness for C4: both branches of `randomize_spec` at concrete inputs. -/
theorem randomize_spec_witness :
    (Gender.Ratio (1/2)).randomize rng0 = (Gender.Female, rng0.floatTail) ∧
    Gender.Male.randomize rng0 = (Gender.Male, rng0) := by
  constructor
  · have h := (randomize_spec (Gender.Ratio (1/2)) rng0).1 (1/2) rfl
    have hlt : rng0.floats 0 < (1/2 : ℚ) := by norm_num [rng0]
    rw [h, if_pos hlt]
  · exact (randomize_spec Gender.Male rng0).2 rfl

/-- C8: for any draw in `[0,1)`, `randomize (Ratio 0)` resolves to Male and
`randomize (Ratio 1)` resolves to Female. -/
theorem randomize_ratio_extremes (r : Rng) (h0 : 0 ≤ r.floats 0)
    (h1 : r.floats 0 < 1) :
    ((Gender.Ratio 0).randomize r).1 = Gender.Male ∧
    ((Gender.Ratio 1).randomize r).1 = Gender.Female := by
  constructor
  · show (if r.floats 0 < (0 : ℚ) then Gender.Female else Gender.Male) = Gender.Male
    rw [if_neg (not_lt.mpr h0)]
  · show (if r.floats 0 < (1 : ℚ) then Gender.Female else Gender.Male) = Gender.Female
    rw [if_pos h1]

/-- Witness for C8 at the all-zero random source. -/
theorem randomize_ratio_extremes_witness :
    ((Gender.Ratio 0).randomize rng0).1 = Gender.Male ∧
    ((Gender.Ratio 1).randomize rng0).1 = Gender.Female :=
  randomize_ratio_extremes rng0 (by norm_num [rng0]) (by norm_num [rng0])

lemma finalGender_female_male (c ws : Bool) (r : Rng) :
    finalGender Gender.Female ⟨c, ws, [Gender.Male]⟩ r = (Gender.Male, r.intTail) := by
  have h1 : finalGender Gender.Female ⟨c, ws, [Gender.Male]⟩ r =
      ([Gender.Male].getD (r.ints 0 % 1) Gender.Male, r.intTail) := rfl
  rw [h1, Nat.mod_one, List.getD_cons_zero]

/-- C1: the membership test of the gender stage uses the effective allowed
set (the default {Male, Female, Agender} when `allow_genders` is empty,
else the caller-supplied list); on failure the gender is replaced by a
uniform draw from the raw `allow_genders` list, with Agender as hard-coded
fallback when that raw list is empty; and with `allow_genders = [Male]` and
an always-Female species the output gender is always Male. -/
theorem wildmon_gender_two_stage :
    (∀ opts : WildmonSettings,
      (opts.allow_genders = [] → effectiveAllowed opts = DEFAULT_GENDERS) ∧
      (opts.allow_genders ≠ [] → effectiveAllowed opts = opts.allow_genders)) ∧
    (∀ (g : Gender) (opts : WildmonSettings) (r : Rng),
      g ∈ effectiveAllowed opts → finalGender g opts r = (g, r)) ∧
    (∀ (g : Gender) (opts : WildmonSettings) (r : Rng),
      g ∉ effectiveAllowed opts → opts.allow_genders ≠ [] →
      finalGender g opts r =
        (opts.allow_genders.getD (r.ints 0 % opts.allow_genders.length)
          Gender.Agender, r.intTail)) ∧
    (∀ (g : Gender) (opts : WildmonSettings) (r : Rng),
      g ∉ effectiveAllowed opts → opts.allow_genders = [] →
      finalGender g opts r = (Gender.Agender, r)) ∧
    (∀ (rng : Rng) (dex : List Species) (c ws : Bool), dex ≠ [] →
      (∀ sp ∈ dex, sp.gender = Gender.Female) →
      ∃ name level, (wildmon rng dex ⟨c, ws, [Gender.Male]⟩).1 =
        formatMon name Gender.Male level ws) := by
  refine ⟨?_, ?_, ?_, ?_, ?_⟩
  · intro opts
    constructor
    · intro h
      unfold effectiveAllowed
      rw [h]
      rfl
    · intro h
      unfold effectiveAllowed
      rw [if_neg (fun hl => h (List.length_eq_zero.mp hl))]
  · intro g opts r h
    unfold finalGender
    rw [if_pos h]
  · intro g opts r h hne
    unfold finalGender
    rw [if_neg h]
    cases halg : opts.allow_genders with
    | nil => exact absurd halg hne
    | cons a tl =>
        have hlt : r.ints 0 % (tl.length + 1) < (a :: tl).length :=
          Nat.mod_lt _ (Nat.succ_pos _)
        show ((a :: tl).getD (r.ints 0 % (tl.length + 1)) a, r.intTail) =
          ((a :: tl).getD (r.ints 0 % (tl.length + 1)) Gender.Agender, r.intTail)
        rw [List.getD_eq_getElem _ _ hlt, List.getD_eq_getElem _ _ hlt]
  · intro g opts r h he
    unfold finalGender
    rw [if_neg h, he]
    rfl
  · intro rng dex c ws hdex hfem
    obtain ⟨sp, r1, hc, hmem⟩ := chooseList_of_ne_nil rng hdex
    have hg : sp.gender = Gender.Female := hfem sp hmem
    refine ⟨speciesName sp, 1 + (r1.intTail).ints 0 % 100, ?_⟩
    rw [wildmon_decomp rng dex ⟨c, ws, [Gender.Male]⟩ sp r1 hc, hg]
    show formatMon (speciesName sp)
        (finalGender Gender.Female ⟨c, ws, [Gender.Male]⟩ r1).1
        (1 + ((finalGender Gender.Female ⟨c, ws, [Gender.Male]⟩ r1).2).ints 0
          % 100) ws =
      formatMon (speciesName sp) Gender.Male (1 + (r1.intTail).ints 0 % 100) ws
    rw [finalGender_female_male c ws r1]

/-- Witness for C1: each stage of `wildmon_gender_two_stage` at concrete
inputs. -/
theorem wildmon_gender_two_stage_witness :
    effectiveAllowed WildmonSettings.defaultSettings = DEFAULT_GENDERS ∧
    effectiveAllowed optsMale = optsMale.allow_genders ∧
    finalGender Gender.Male WildmonSettings.defaultSettings rng0 =
      (Gender.Male, rng0) ∧
    finalGender Gender.Female optsMale rng0 = (Gender.Male, rng0.intTail) ∧
    finalGender (Gender.Ratio (1/2)) WildmonSettings.defaultSettings rng0 =
      (Gender.Agender, rng0) ∧
    (∃ name level, (wildmon rng0 [eve] ⟨true, false, [Gender.Male]⟩).1 =
      formatMon name Gender.Male level false) := by
  refine ⟨(wildmon_gender_two_stage.1 WildmonSettings.defaultSettings).1 rfl,
    (wildmon_gender_two_stage.1 optsMale).2 (by decide), ?_, ?_, ?_, ?_⟩
  · exact wildmon_gender_two_stage.2.1 Gender.Male WildmonSettings.defaultSettings
      rng0 (by decide)
  · rw [wildmon_gender_two_stage.2.2.1 Gender.Female optsMale rng0
      (by decide) (by decide)]
    rfl
  · exact wildmon_gender_two_stage.2.2.2.1 (Gender.Ratio (1/2))
      WildmonSettings.defaultSettings rng0 (by decide) rfl
  · exact wildmon_gender_two_stage.2.2.2.2 rng0 [eve] true false (by decide)
      (by decide)

/-- C2: the label is "Wild " + name + genderSymbol + " (lv" + level + ")",
with every space replaced by an underscore exactly when
`settings.whitespace` is false, where name is the chosen species' display
name. -/
theorem wildmon_format (rng : Rng) (dex : List Species)
    (opts : WildmonSettings) (hdex : dex ≠ []) :
    ∃ (sp : Species) (r1 : Rng) (g : Gender) (level : ℕ),
      chooseList dex rng = (some sp, r1) ∧
      (wildmon rng dex opts).1 =
        (if opts.whitespace = false
         then replaceSpaces ("Wild " ++ speciesName sp ++ Gender.symbol g ++
           " (lv" ++ toString level ++ ")")
         else "Wild " ++ speciesName sp ++ Gender.symbol g ++
           " (lv" ++ toString level ++ ")") := by
  obtain ⟨sp, r1, hc, -⟩ := chooseList_of_ne_nil rng hdex
  refine ⟨sp, r1,
    (finalGender (sp.gender.randomize r1).1 opts (sp.gender.randomize r1).2).1,
    1 + ((finalGender (sp.gender.randomize r1).1 opts
      (sp.gender.randomize r1).2).2).ints 0 % 100, hc, ?_⟩
  rw [wildmon_decomp rng dex opts sp r1 hc]
  cases opts.whitespace with
  | false => rfl
  | true => rfl

/-- Witness for C2: the spec's Mr. Mime example, producing exactly
"Wild_Mr._Mime_(lv5)" under default settings. -/
theorem wildmon_format_witness :
    (∃ (sp : Species) (r1 : Rng) (g : Gender) (level : ℕ),
      chooseList [mrMime] rngEx = (some sp, r1) ∧
      (wildmon rngEx [mrMime] WildmonSettings.defaultSettings).1 =
        (if WildmonSettings.defaultSettings.whitespace = false
         then replaceSpaces ("Wild " ++ speciesName sp ++ Gender.symbol g ++
           " (lv" ++ toString level ++ ")")
         else "Wild " ++ speciesName sp ++ Gender.symbol g ++
           " (lv" ++ toString level ++ ")")) ∧
    (wildmon rngEx [mrMime] WildmonSettings.defaultSettings).1 =
      "Wild_Mr._Mime_(lv5)" :=
  ⟨wildmon_format rngEx [mrMime] WildmonSettings.defaultSettings (by decide),
   by decide⟩

/-- C5 counterexample: with `allow_genders = [Ratio(1/2)]` the fallback
draw selects the raw Ratio value, so the label's gender symbol is "?": the
claim fails for settings whose allow list itself contains a Ratio value. -/
theorem wildmon_ratio_shown_counterexample :
    (finalGender Gender.Female optsC5 rng0.intTail).1 = Gender.Ratio (1/2) ∧
    (wildmon rng0 [eve] optsC5).1 = "Wild Eve? (lv1)" ∧
    Gender.symbol (Gender.Ratio (1/2)) = "?" :=
  ⟨rfl, by decide, rfl⟩

/-- C5 amended: provided the caller-supplied `allow_genders` list contains
no Ratio value, the gender composed into the returned label is always one
of Agender, Male, or Female, so "?" never appears as the label's gender
symbol. -/
theorem wildmon_no_ratio_shown (rng : Rng) (dex : List Species)
    (opts : WildmonSettings) (hdex : dex ≠ [])
    (hag : ∀ g ∈ opts.allow_genders, g.isRatio = false) :
    ∃ sp r1 g level, chooseList dex rng = (some sp, r1) ∧
      g.isRatio = false ∧
      (wildmon rng dex opts).1 =
        formatMon (speciesName sp) g level opts.whitespace := by
  obtain ⟨sp, r1, hc, -⟩ := chooseList_of_ne_nil rng hdex
  refine ⟨sp, r1,
    (finalGender (sp.gender.randomize r1).1 opts (sp.gender.randomize r1).2).1,
    1 + ((finalGender (sp.gender.randomize r1).1 opts
      (sp.gender.randomize r1).2).2).ints 0 % 100, hc, ?_, ?_⟩
  · exact finalGender_not_ratio (sp.gender.randomize r1).1 opts
      (sp.gender.randomize r1).2 (randomize_fst_not_ratio sp.gender r1) hag
  · rw [wildmon_decomp rng dex opts sp r1 hc]

/-- Witness for the amended C5 at default settings. -/
theorem wildmon_no_ratio_shown_witness :
    ∃ sp r1 g level, chooseList [eve] rng0 = (some sp, r1) ∧
      g.isRatio = false ∧
      (wildmon rng0 [eve] WildmonSettings.defaultSettings).1 =
        formatMon (speciesName sp) g level
          WildmonSettings.defaultSettings.whitespace :=
  wildmon_no_ratio_shown rng0 [eve] WildmonSettings.defaultSettings
    (by decide) (by decide)

/-- C7: the level in the output is `1 + i % 100` for `i` the single int
draw taken right after gender resolution, hence an integer in [1, 100];
the rng state after the call is exactly that draw consumed, and the whole
computation is a pure function of the supplied random source. -/
theorem wildmon_level (rng : Rng) (dex : List Species)
    (opts : WildmonSettings) (hdex : dex ≠ []) :
    ∃ sp r1 g r3, chooseList dex rng = (some sp, r1) ∧
      finalGender (sp.gender.randomize r1).1 opts
        (sp.gender.randomize r1).2 = (g, r3) ∧
      (wildmon rng dex opts).1 =
        formatMon (speciesName sp) g (1 + r3.ints 0 % 100) opts.whitespace ∧
      (wildmon rng dex opts).2 = r3.intTail ∧
      1 ≤ 1 + r3.ints 0 % 100 ∧ 1 + r3.ints 0 % 100 ≤ 100 := by
  obtain ⟨sp, r1, hc, -⟩ := chooseList_of_ne_nil rng hdex
  refine ⟨sp, r1,
    (finalGender (sp.gender.randomize r1).1 opts (sp.gender.randomize r1).2).1,
    (finalGender (sp.gender.randomize r1).1 opts (sp.gender.randomize r1).2).2,
    hc, rfl, ?_, ?_, Nat.le_add_right 1 _, ?_⟩
  · rw [wildmon_decomp rng dex opts sp r1 hc]
  · rw [wildmon_decomp rng dex opts sp r1 hc]
  · have h : ((finalGender (sp.gender.randomize r1).1 opts
      (sp.gender.randomize r1).2).2).ints 0 % 100 < 100 :=
      Nat.mod_lt _ (by norm_num)
    omega

/-- Witness for C7 at a concrete one-species catalog. -/
theorem wildmon_level_witness :
    ∃ sp r1 g r3, chooseList [eve] rng0 = (some sp, r1) ∧
      finalGender (sp.gender.randomize r1).1 WildmonSettings.defaultSettings
        (sp.gender.randomize r1).2 = (g, r3) ∧
      (wildmon rng0 [eve] WildmonSettings.defaultSettings).1 =
        formatMon (speciesName sp) g (1 + r3.ints 0 % 100)
          WildmonSettings.defaultSettings.whitespace ∧
      (wildmon rng0 [eve] WildmonSettings.defaultSettings).2 = r3.intTail ∧
      1 ≤ 1 + r3.ints 0 % 100 ∧ 1 + r3.ints 0 % 100 ≤ 100 :=
  wildmon_level rng0 [eve] WildmonSettings.defaultSettings (by decide)

/-- C9: if the selected species has no names, the sentinel "Missingno." is
used as the name and still composed into the full formatted label;
otherwise the species' first name is used. -/
theorem wildmon_nameless (rng : Rng) (dex : List Species)
    (opts : WildmonSettings) (sp : Species) (r1 : Rng)
    (hc : chooseList dex rng = (some sp, r1)) :
    (sp.names = [] → speciesName sp = MISSINGNO) ∧
    (∀ n ntl, sp.names = n :: ntl → speciesName sp = n) ∧
    ∃ g level, (wildmon rng dex opts).1 =
      formatMon (speciesName sp) g level opts.whitespace := by
  refine ⟨?_, ?_, ?_⟩
  · intro h
    unfold speciesName
    rw [h]
    rfl
  · intro n ntl h
    unfold speciesName
    rw [h]
    rfl
  · exact ⟨(finalGender (sp.gender.randomize r1).1 opts
        (sp.gender.randomize r1).2).1,
      1 + ((finalGender (sp.gender.randomize r1).1 opts
        (sp.gender.randomize r1).2).2).ints 0 % 100,
      by rw [wildmon_decomp rng dex opts sp r1 hc]⟩

/-- Witness for C9: a nameless species yields the sentinel inside the full
label, and a named species yields its first name. -/
theorem wildmon_nameless_witness :
    (speciesName noname = MISSINGNO ∧
      ∃ g level, (wildmon rng0 [noname] WildmonSettings.defaultSettings).1 =
        formatMon (speciesName noname) g level
          WildmonSettings.defaultSettings.whitespace) ∧
    speciesName eve = "Eve" := by
  have h := wildmon_nameless rng0 [noname] WildmonSettings.defaultSettings
    noname rng0.intTail rfl
  have h2 := wildmon_nameless rng0 [eve] WildmonSettings.defaultSettings
    eve rng0.intTail rfl
  exact ⟨⟨h.1 rfl, h.2.2⟩, h2.2.1 "Eve" [] rfl⟩

/-- C10: `randomize` never returns a Ratio value, and it is a retraction
onto the non-Ratio genders: applying it again to any of its results returns
that result unchanged and consumes no further draws. -/
theorem randomize_retraction (g : Gender) (r : Rng) :
    ((g.randomize r).1).isRatio = false ∧
    ∀ r2 : Rng, ((g.randomize r).1).randomize r2 = ((g.randomize r).1, r2) := by
  refine ⟨randomize_fst_not_ratio g r, fun r2 => ?_⟩
  cases g with
  | Ratio q =>
      show (if r.floats 0 < q then Gender.Female else Gender.Male).randomize r2 =
        ((if r.floats 0 < q then Gender.Female else Gender.Male), r2)
      by_cases h : r.floats 0 < q
      · rw [if_pos h]; rfl
      · rw [if_neg h]; rfl
  | Agender => rfl
  | Male => rfl
  | Female => rfl

/-- C3: on an empty catalog, `wildmon` returns exactly the sentinel string
"Missingno." for every settings value and every random source, leaving the
random source untouched and signaling no error. -/
theorem wildmon_empty_catalog (rng : Rng) (opts : WildmonSettings) :
    wildmon rng [] opts = (MISSINGNO, rng) := rfl

/-- C6: the `canon` setting has no observable effect: two invocations on the
same catalog and the same random source, with settings differing only in
`canon`, return identical results. -/
theorem wildmon_canon_inert (rng : Rng) (pokedex : List Species)
    (c1 c2 ws : Bool) (ag : List Gender) :
    wildmon rng pokedex ⟨c1, ws, ag⟩ = wildmon rng pokedex ⟨c2, ws, ag⟩ := rfl

end Wildmon
